import Mathlib

/-!
# Verification of `media_to_gif.py`

A shallow embedding of the orchestration logic of `media_to_gif.py`
(pattern filter, pair finder, clip generator, video processor, main loop),
with theorems settling the specification claims about it.

Strings are modelled as `List Char` (a Lean `String` literal `s` is turned
into its character list with `s.data`).  The filesystem and the external
`ffmpeg` subprocess are modelled by explicit environment records describing
the outcome of each effectful step, and by effect traces recording which
effectful steps a function performed, so that control flow can be followed
exactly as in the Python source.
-/

namespace MediaToGif

/-! ## Characters and Python string helpers -/

/-- ASCII lowercase letter test: the character class `[a-z]` of the Python
regular expressions in `SKIP_PATTERNS` (Python character classes with
explicit ASCII ranges match exactly these code points). -/
def isAsciiLower (c : Char) : Bool :=
  decide ('a' ≤ c) && decide (c ≤ 'z')

/-- The whitespace characters removed by Python `str.strip()` (restricted to
ASCII; the non-ASCII Unicode whitespace code points are not modelled). -/
def isPyWhitespace (c : Char) : Bool :=
  c = ' ' || c = '\t' || c = '\n' || c = '\r' || c = '\x0b' || c = '\x0c'

/-- Python `str.strip()`: drop leading and trailing whitespace. -/
def pyStrip (l : List Char) : List Char :=
  ((l.dropWhile isPyWhitespace).reverse.dropWhile isPyWhitespace).reverse

/-! ## `striptags` (media_to_gif.py line 57-59)

`re.sub(r'<.*?>|{.*?}', '', text).strip()`.  `re.sub` scans left to right;
at a `<` (resp. an opening brace) the non-greedy `<.*?>` (resp. brace
pattern) matches up to the nearest closing `>` (resp. closing brace), and
since `.` does not match a newline, only when that closing character occurs
before any newline.  When no match starts at the current position the
character is kept and scanning resumes at the next position. -/

/-- Scan for the closing character of a tag: the remainder of the list after
the first occurrence of `close`, failing at a newline or at the end of the
list (the regex `.` does not match `'\n'`). -/
def findTagClose (close : Char) : List Char → Option (List Char)
  | [] => none
  | c :: cs =>
    if c = '\n' then none
    else if c = close then some cs
    else findTagClose close cs

/-- One left-to-right pass of `re.sub(r'<.*?>|{.*?}', '', ·)`, written with
explicit fuel so that it is structurally recursive (every step consumes at
least one character, so `fuel = length` is always enough). -/
def removeTagsFuel : Nat → List Char → List Char
  | 0, l => l
  | _ + 1, [] => []
  | fuel + 1, c :: cs =>
    if c = '<' then
      match findTagClose '>' cs with
      | some rest => removeTagsFuel fuel rest
      | none => c :: removeTagsFuel fuel cs
    else if c = '\x7b' then
      match findTagClose '\x7d' cs with
      | some rest => removeTagsFuel fuel rest
      | none => c :: removeTagsFuel fuel cs
    else c :: removeTagsFuel fuel cs

/-- `re.sub(r'<.*?>|{.*?}', '', text)`. -/
def removeTags (l : List Char) : List Char :=
  removeTagsFuel l.length l

/-- `striptags(text)` (line 57-59): strip HTML-like and brace-delimited tags
from subtitle text, then strip surrounding whitespace. -/
def striptags (text : List Char) : List Char :=
  pyStrip (removeTags text)

/-! ## Subtitle entries and the pattern filter (lines 39-46 and 61-66) -/

/-- One parsed subtitle entry: raw text (may contain markup) and start/end
timestamps in milliseconds, as parsed by `pysrt`. -/
structure SubEntry where
  text : List Char
  startMs : Nat
  endMs : Nat
deriving DecidableEq

/-- `SKIP_ENABLED` (line 39). -/
def SKIP_ENABLED : Bool := true

/-- The position at which the regex anchor `$` matches: the end of the
string, or just before a newline that is the last character.  `dollarStrip`
removes that one trailing newline so that "the character before `$`" is the
last character of the result. -/
def dollarStrip (l : List Char) : List Char :=
  match l.getLast? with
  | some c => if c = '\n' then l.dropLast else l
  | none => l

/-- `re.search(r".*[a-z]$", t)` succeeds iff the character just before the
`$` position is an ASCII lowercase letter (the `.*` imposes no constraint,
as the match attempt may begin at that very character). -/
def searchEndsLower (t : List Char) : Bool :=
  match (dollarStrip t).getLast? with
  | some c => isAsciiLower c
  | none => false

/-- `re.search(r".*\,$", t)` / `re.search(r".*\:$", t)`: the character just
before the `$` position is `ch`. -/
def searchEndsChar (ch : Char) (t : List Char) : Bool :=
  match (dollarStrip t).getLast? with
  | some c => decide (c = ch)
  | none => false

/-- `re.search(r"^[a-z].*", t)`: without `re.MULTILINE`, `^` matches only at
the start, so the search succeeds iff the first character is an ASCII
lowercase letter. -/
def searchStartsLower (t : List Char) : Bool :=
  match t.head? with
  | some c => isAsciiLower c
  | none => false

/-- `re.search(r"^\.\.\.", t)`: the string starts with three dots. -/
def searchStartsEllipsis (t : List Char) : Bool :=
  decide (t.take 3 = ['.', '.', '.'])

/-- `any(re.search(pattern, text) for pattern in SKIP_PATTERNS)`
(lines 40-46 and 66). -/
def matchesSkipPattern (t : List Char) : Bool :=
  searchEndsLower t || searchEndsChar ',' t || searchEndsChar ':' t ||
    searchStartsLower t || searchStartsEllipsis t

/-- `no_skips(sub)` (lines 61-66). -/
def no_skips (sub : SubEntry) : Bool :=
  if SKIP_ENABLED then !matchesSkipPattern (striptags sub.text) else true

/-! ## POSIX path helpers

The script runs on Linux/macOS in this model (`IS_WINDOWS = False`), so
`os.path` uses `'/'` as the separator.  The paths manipulated by the script
are built by `os.path.join(root, file)` from directory names without a
trailing slash and file names without any slash, for which the following
definitions agree with `os.path`. -/

/-- `os.path.join(d, f)` for a relative file name `f`. -/
def pathJoin (d f : List Char) : List Char := d ++ '/' :: f

/-- `os.path.basename(p)`: everything after the last `'/'`. -/
def basename (p : List Char) : List Char :=
  (p.reverse.takeWhile (fun c => decide (c ≠ '/'))).reverse

/-- `os.path.dirname(p)`: everything before the last `'/'` (the empty list
when `p` has no slash). -/
def dirname (p : List Char) : List Char :=
  ((p.reverse.dropWhile (fun c => decide (c ≠ '/'))).drop 1).reverse

/-- The root part of `os.path.splitext(name)` for a slash-free `name`:
split at the last dot, except that a dot is not an extension separator when
every character before it is a dot (so `".bashrc"` has no extension). -/
def splitextRoot (name : List Char) : List Char :=
  let rev := name.reverse
  let extRev := rev.takeWhile (fun c => decide (c ≠ '.'))
  if extRev.length = rev.length then name
  else
    let root := (rev.drop (extRev.length + 1)).reverse
    if root.all (fun c => decide (c = '.')) then name else root

/-- The extension part of `os.path.splitext(name)` for a slash-free `name`
(empty, or a list starting with the dot). -/
def splitextExt (name : List Char) : List Char :=
  let rev := name.reverse
  let extRev := rev.takeWhile (fun c => decide (c ≠ '.'))
  if extRev.length = rev.length then []
  else
    let root := (rev.drop (extRev.length + 1)).reverse
    if root.all (fun c => decide (c = '.')) then [] else '.' :: extRev.reverse

/-- ASCII `str.lower()` on one character (file extensions are ASCII). -/
def asciiLowerChar (c : Char) : Char :=
  if decide ('A' ≤ c) && decide (c ≤ 'Z') then Char.ofNat (c.toNat + 32) else c

/-! ## Pair finder (`find_video_pairs`, lines 189-223) -/

/-- One file yielded by `os.walk(input_dir)`: the directory that contains it
(as reported by the walk, no trailing slash) and its bare file name. -/
structure WalkEntry where
  dir : List Char
  file : List Char
deriving DecidableEq

/-- `['.mp4', '.mkv', '.avi', '.mov']` (line 198). -/
def VIDEO_EXTS : List (List Char) :=
  [".mp4".data, ".mkv".data, ".avi".data, ".mov".data]

/-- `['.srt', '.sub', '.ass']` (line 200). -/
def SUBTITLE_EXTS : List (List Char) :=
  [".srt".data, ".sub".data, ".ass".data]

/-- `os.path.splitext(file)[1].lower()` (line 197). -/
def extLower (name : List Char) : List Char :=
  (splitextExt name).map asciiLowerChar

/-- The `video_files` list built by the walk (lines 191-199), in walk
order. -/
def videoFiles (walk : List WalkEntry) : List (List Char) :=
  (walk.filter (fun e => decide (extLower e.file ∈ VIDEO_EXTS))).map
    (fun e => pathJoin e.dir e.file)

/-- The `subtitle_files` list built by the walk (lines 191-201), in walk
order. -/
def subtitleFiles (walk : List WalkEntry) : List (List Char) :=
  (walk.filter (fun e => decide (extLower e.file ∈ SUBTITLE_EXTS))).map
    (fun e => pathJoin e.dir e.file)

/-- `find_video_pairs(input_dir)` (lines 189-223), as a function of the walk
listing.  For a video directly in `input_dir`, `next(...)` returns the first
name-matching entry of `subtitle_files`; otherwise every subtitle in the
video's own directory is paired. -/
def find_video_pairs (input_dir : List Char) (walk : List WalkEntry) :
    List (List Char × List Char) :=
  let video_files := videoFiles walk
  let subtitle_files := subtitleFiles walk
  video_files.flatMap (fun video =>
    let video_name := splitextRoot (basename video)
    let video_dir := dirname video
    if video_dir = input_dir then
      match subtitle_files.find?
          (fun sub => decide (splitextRoot (basename sub) = video_name)) with
      | some matching => [(video, matching)]
      | none => []
    else
      (subtitle_files.filter (fun sub => decide (dirname sub = video_dir))).map
        (fun sub => (video, sub)))

/-! ## Decimal digit strings -/

/-- The character of a decimal digit (only digits `0`-`9` are ever
produced). -/
def digitToChar (d : Nat) : Char :=
  match d with
  | 0 => '0' | 1 => '1' | 2 => '2' | 3 => '3' | 4 => '4'
  | 5 => '5' | 6 => '6' | 7 => '7' | 8 => '8' | _ => '9'

/-- Digit-string builder with explicit fuel (fuel `n + 1` is always enough
for `n`), so that it is structurally recursive and kernel-reducible. -/
def natDecimalAux : Nat → Nat → List Char → List Char
  | 0, _, acc => acc
  | fuel + 1, n, acc =>
    if n < 10 then digitToChar n :: acc
    else natDecimalAux fuel (n / 10) (digitToChar (n % 10) :: acc)

/-- The decimal digit string of `n`, as produced by Python `str(n)` and
`format(n)` for a nonnegative integer. -/
def natDecimal (n : Nat) : List Char := natDecimalAux (n + 1) n []

/-- Python `f'{i:06}'`: the decimal digits of `i`, left-padded with `'0'` to
width 6. -/
def pad6 (i : Nat) : List Char :=
  List.replicate (6 - (natDecimal i).length) '0' ++ natDecimal i

/-- Numeric value of a decimal digit character. -/
def digitVal (c : Char) : Nat := c.toNat - '0'.toNat

/-- Python `int(s)` on a string of decimal digits. -/
def parseDecimal (l : List Char) : Nat :=
  l.foldl (fun acc c => acc * 10 + digitVal c) 0

/-- Python `s.split('-')[0]`: the prefix of `s` before the first `'-'`
(all of `s` when there is none). -/
def dashSplit0 (s : List Char) : List Char :=
  s.takeWhile (fun c => decide (c ≠ '-'))

/-- The sort key of the manifest (line 179):
`int(os.path.basename(x['path']).split('-')[0])`. -/
def manifestSortKey (path : List Char) : Nat :=
  parseDecimal (dashSplit0 (basename path))

/-! ## Clip generator (`make_gif`, lines 72-137)

The filesystem state and the `ffmpeg` subprocess are modelled by a
`GifEnv` record giving the outcome of each effectful step of one
invocation, and the invocation reports the effects it performed and
whether the transient fragment file is left on disk.  The transient
fragment is assumed not to exist before the invocation (it is scoped to
the invocation; concurrent tasks use distinct indices `i`). -/

/-- `{'text': sub.text, 'path': gif_filepath}` (lines 81 and 128). -/
structure GifRecord where
  text : List Char
  path : List Char
deriving DecidableEq

/-- Outcome of `open(temp_sub_file, 'w')` followed by `f.write(...)`
(lines 92-93).  An `IOError` can be raised before the file exists (e.g.
`open` fails) or after `open` has already created it (e.g. the write runs
out of disk space). -/
inductive WriteOutcome where
  | ok
  | errBeforeCreate
  | errAfterCreate
deriving DecidableEq

/-- The environment one `make_gif` invocation runs in. -/
structure GifEnv where
  /-- `os.path.exists(gif_filepath) and os.path.getsize(gif_filepath) > 0`
  on entry (line 80). -/
  gifExistsNonEmpty : Bool
  /-- outcome of writing the transient fragment (lines 91-96). -/
  writeOutcome : WriteOutcome
  /-- `subprocess.run(cmd, check=True)` raises `CalledProcessError` iff
  this is `false` (lines 124-125 and 132). -/
  runOk : Bool
  /-- `os.path.exists(gif_filepath) and os.path.getsize(gif_filepath) > 0`
  after the transcoder ran (line 126). -/
  producedNonEmpty : Bool
deriving DecidableEq

/-- The externally visible steps a `make_gif` invocation performs. -/
inductive GifEffect where
  | writeFragment (path : List Char)
  | runTranscoder (videoPath gifPath : List Char)
  | removeFile (path : List Char)
deriving DecidableEq

/-- Result of one `make_gif` invocation: the returned value (`none` models
Python `None`), the effect trace, and whether `temp_sub_{i}.srt` exists on
disk after the call returns. -/
structure MkGifResult where
  ret : Option GifRecord
  effects : List GifEffect
  tempLeft : Bool
deriving DecidableEq

/-- `f'{i:06}-{slugify(text)}.gif'` (line 77), where `text` is the
tag-stripped subtitle text (line 75).  `slugify` comes from an external
library and is passed in as a parameter. -/
def gif_filename (slug : List Char → List Char) (i : Nat) (sub : SubEntry) :
    List Char :=
  pad6 i ++ '-' :: (slug (striptags sub.text) ++ ".gif".data)

/-- `os.path.join(output_dir, f"temp_sub_{i}.srt")` (line 90). -/
def temp_sub_file (output_dir : List Char) (i : Nat) : List Char :=
  pathJoin output_dir ("temp_sub_".data ++ natDecimal i ++ ".srt".data)

/-- `make_gif(args)` (lines 72-137).  Control flow, step by step:
line 80 early return when the output already exists non-empty; lines 91-96
write the fragment, returning `None` from the `except IOError` handler on
failure (note: without deleting a fragment the failed write may have
created — the `finally` on lines 135-137 belongs to the *second* `try`);
lines 124-137 run the transcoder inside `try ... finally` so that the
fragment is deleted on the success, empty-output and
`CalledProcessError` paths alike. -/
def make_gif (env : GifEnv) (slug : List Char → List Char)
    (output_dir video_path : List Char) (i : Nat) (sub : SubEntry) :
    MkGifResult :=
  let gif_filepath := pathJoin output_dir (gif_filename slug i sub)
  if env.gifExistsNonEmpty then
    { ret := some ⟨sub.text, gif_filepath⟩, effects := [], tempLeft := false }
  else
    let temp := temp_sub_file output_dir i
    match env.writeOutcome with
    | .errBeforeCreate =>
      { ret := none, effects := [], tempLeft := false }
    | .errAfterCreate =>
      { ret := none, effects := [.writeFragment temp], tempLeft := true }
    | .ok =>
      if env.runOk then
        if env.producedNonEmpty then
          { ret := some ⟨sub.text, gif_filepath⟩,
            effects := [.writeFragment temp,
              .runTranscoder video_path gif_filepath, .removeFile temp],
            tempLeft := false }
        else
          { ret := none,
            effects := [.writeFragment temp,
              .runTranscoder video_path gif_filepath, .removeFile temp],
            tempLeft := false }
      else
        { ret := none,
          effects := [.writeFragment temp,
            .runTranscoder video_path gif_filepath, .removeFile temp],
          tempLeft := false }

/-! ## Video processor (`process_video`, lines 139-187) -/

/-- `OUTPUT_DIR` (line 36). -/
def OUTPUT_DIR : List Char := "gifs".data

/-- `os.path.join(OUTPUT_DIR, os.path.splitext(os.path.basename(video))[0])`
(lines 141-142). -/
def videoOutputDir (video_file : List Char) : List Char :=
  pathJoin OUTPUT_DIR (splitextRoot (basename video_file))

/-- The task list `[(i, sub) for i, sub in enumerate(filtered_subs)]`
(lines 153 and 158-161). -/
def pvTasks (subs : List SubEntry) : List (Nat × SubEntry) :=
  (subs.filter no_skips).enum

/-- `metadata_list.sort(key=lambda x: int(basename(x['path']).split('-')[0]))`
(line 179): Python `list.sort` is a stable ascending sort by the key;
insertion sort inserting each element before the strictly greater ones is
the same function. -/
def pySort (l : List GifRecord) : List GifRecord :=
  l.insertionSort (fun a b => manifestSortKey a.path ≤ manifestSortKey b.path)

/-- The records collected from `as_completed` (lines 170-173): the results
arrive in completion order (`arrive` reorders the submitted task list), a
task's result is appended iff it is not `None`. -/
def collectedMetadata (subs : List SubEntry) (env : Nat → GifEnv)
    (slug : List Char → List Char) (output_dir video_path : List Char)
    (arrive : List (Nat × SubEntry) → List (Nat × SubEntry)) :
    List GifRecord :=
  ((arrive (pvTasks subs)).map
      (fun t => make_gif (env t.1) slug output_dir video_path t.1 t.2)).filterMap
    (fun r => r.ret)

/-- Result of one `process_video` call: the manifest written (`none` when
`metadata.json` is not written) and the clip-generation effect trace. -/
structure PVResult where
  manifest : Option (List GifRecord)
  effects : List GifEffect
deriving DecidableEq

/-- `process_video(video_file, subtitle_file)` (lines 139-187).
`parseResult` is the outcome of `pysrt.open` (line 148); an `IOError` there
is caught and the function returns with nothing done (lines 149-151).
Otherwise one `make_gif` task per filtered subtitle is submitted to the
pool, results are drained in completion order (`arrive`, a reordering of
the task list), non-`None` results are collected, and the manifest is
written sorted iff the collection is non-empty (lines 178-183). -/
def process_video (parseResult : Except Unit (List SubEntry))
    (env : Nat → GifEnv) (slug : List Char → List Char)
    (video_path output_dir : List Char)
    (arrive : List (Nat × SubEntry) → List (Nat × SubEntry)) : PVResult :=
  match parseResult with
  | .error _ => { manifest := none, effects := [] }
  | .ok subs =>
    let results := (arrive (pvTasks subs)).map
      (fun t => make_gif (env t.1) slug output_dir video_path t.1 t.2)
    let metadata := results.filterMap (fun r => r.ret)
    { manifest := if metadata = [] then none else some (pySort metadata),
      effects := results.flatMap (fun r => r.effects) }

/-! ## Orchestrator loop (`main`, lines 242-243) -/

/-- The per-pair environment: the `pysrt.open` outcome for the pair's
subtitle file, the per-task clip environments, and the completion order. -/
structure PairEnv where
  parse : Except Unit (List SubEntry)
  taskEnv : Nat → GifEnv
  arrive : List (Nat × SubEntry) → List (Nat × SubEntry)

/-- The loop `for video_file, subtitle_file in video_pairs:
process_video(video_file, subtitle_file)` (lines 242-243): every pair is
processed sequentially, in order; `env k` is the environment the `k`-th
pair runs in. -/
def mainLoop (pairs : List (List Char × List Char)) (env : Nat → PairEnv)
    (slug : List Char → List Char) : List PVResult :=
  pairs.enum.map (fun kp =>
    process_video (env kp.1).parse (env kp.1).taskEnv slug kp.2.1
      (videoOutputDir kp.2.1) (env kp.1).arrive)

/-! ## Claims C1 and C4: the pair finder -/

/-- A walk listing with `movie.mp4` at the root and a name-matching
`movie.srt` in a subdirectory only (walk order: root files first). -/
def c1Walk : List WalkEntry :=
  [⟨"input".data, "movie.mp4".data⟩, ⟨"input/sub".data, "movie.srt".data⟩]

/-- C1 (counterexample): a video directly in the root input directory with
no co-located subtitle does *not* contribute no pairs — the name-matching
search of `find_video_pairs` (line 211-214) scans the whole
`subtitle_files` list, so the root video is paired with a name-matching
subtitle that lives in a subdirectory. -/
theorem C1_counterexample :
    find_video_pairs ("input".data) c1Walk =
        [("input/movie.mp4".data, "input/sub/movie.srt".data)] ∧
      dirname ("input/movie.mp4".data) = "input".data ∧
      dirname ("input/sub/movie.srt".data) ≠ "input".data := by
  decide

/-- C1 (amended): for a video directly in the root input directory, the
pair finder pairs it with the *first* subtitle file, in walk order, found
anywhere under the input tree whose base filename (extension stripped)
equals the video's base filename exactly; only when no subtitle anywhere in
the tree matches the name does the video contribute no pairs. -/
theorem C1_root_video_pairs_with_first_name_match (input_dir : List Char)
    (walk : List WalkEntry) (video sub : List Char)
    (hroot : dirname video = input_dir) :
    ((video, sub) ∈ find_video_pairs input_dir walk ↔
      video ∈ videoFiles walk ∧
        (subtitleFiles walk).find?
            (fun s =>
              decide (splitextRoot (basename s) = splitextRoot (basename video))) =
          some sub) := by
  simp only [find_video_pairs, List.mem_flatMap]
  constructor
  · rintro ⟨v, hv, hmem⟩
    by_cases hd : dirname v = input_dir
    · rw [if_pos hd] at hmem
      rcases hfind : (subtitleFiles walk).find?
          (fun s =>
            decide (splitextRoot (basename s) = splitextRoot (basename v))) with
        _ | m
      · rw [hfind] at hmem
        simp at hmem
      · rw [hfind] at hmem
        simp only [List.mem_singleton, Prod.mk.injEq] at hmem
        obtain ⟨rfl, rfl⟩ := hmem
        exact ⟨hv, hfind⟩
    · rw [if_neg hd] at hmem
      simp only [List.mem_map, List.mem_filter] at hmem
      obtain ⟨s, _, heq⟩ := hmem
      obtain ⟨rfl, rfl⟩ := Prod.mk.injEq .. |>.mp heq
      exact absurd hroot hd
  · rintro ⟨hvmem, hfind⟩
    refine ⟨video, hvmem, ?_⟩
    rw [if_pos hroot, hfind]
    simp

/-- C1 (witness for the amended claim): the amended characterisation at the
concrete two-file walk listing. -/
theorem C1_root_video_pairs_witness :
    (("input/movie.mp4".data, "input/sub/movie.srt".data) ∈
        find_video_pairs ("input".data) c1Walk ↔
      "input/movie.mp4".data ∈ videoFiles c1Walk ∧
        (subtitleFiles c1Walk).find?
            (fun s =>
              decide (splitextRoot (basename s) =
                splitextRoot (basename ("input/movie.mp4".data)))) =
          some ("input/sub/movie.srt".data)) :=
  C1_root_video_pairs_with_first_name_match ("input".data) c1Walk
    ("input/movie.mp4".data) ("input/sub/movie.srt".data) (by decide)

/-- A walk listing with one subfolder holding one video and two subtitle
files of unrelated names. -/
def c4Walk : List WalkEntry :=
  [⟨"input/d".data, "clip.mkv".data⟩, ⟨"input/d".data, "a.srt".data⟩,
   ⟨"input/d".data, "b.sub".data⟩]

/-- C4 (confirmed): a video in a subdirectory of the input root is paired
with every subtitle file in that same subdirectory, regardless of filename
(lines 217-221); concretely, a subfolder holding `clip.mkv`, `a.srt`,
`b.sub` yields exactly the two pairs `(clip.mkv, a.srt)` and
`(clip.mkv, b.sub)`. -/
theorem C4_subdir_cartesian_pairing :
    (∀ (input_dir : List Char) (walk : List WalkEntry) (video sub : List Char),
        dirname video ≠ input_dir →
        ((video, sub) ∈ find_video_pairs input_dir walk ↔
          video ∈ videoFiles walk ∧ sub ∈ subtitleFiles walk ∧
            dirname sub = dirname video)) ∧
      find_video_pairs ("input".data) c4Walk =
        [("input/d/clip.mkv".data, "input/d/a.srt".data),
         ("input/d/clip.mkv".data, "input/d/b.sub".data)] := by
  constructor
  · intro input_dir walk video sub hsub
    simp only [find_video_pairs, List.mem_flatMap]
    constructor
    · rintro ⟨v, hv, hmem⟩
      by_cases hd : dirname v = input_dir
      · rw [if_pos hd] at hmem
        rcases hfind : (subtitleFiles walk).find?
            (fun s =>
              decide (splitextRoot (basename s) = splitextRoot (basename v))) with
          _ | m
        · rw [hfind] at hmem
          simp at hmem
        · rw [hfind] at hmem
          simp only [List.mem_singleton, Prod.mk.injEq] at hmem
          obtain ⟨rfl, rfl⟩ := hmem
          exact absurd hd hsub
      · rw [if_neg hd] at hmem
        simp only [List.mem_map, List.mem_filter, decide_eq_true_eq] at hmem
        obtain ⟨s, ⟨hsmem, hsdir⟩, heq⟩ := hmem
        obtain ⟨rfl, rfl⟩ := Prod.mk.injEq .. |>.mp heq
        exact ⟨hv, hsmem, hsdir⟩
    · rintro ⟨hvmem, hsmem, hsdir⟩
      refine ⟨video, hvmem, ?_⟩
      rw [if_neg hsub]
      simp only [List.mem_map, List.mem_filter, decide_eq_true_eq]
      exact ⟨sub, ⟨hsmem, hsdir⟩, rfl⟩
  · decide

/-- C4 (witness): the subdirectory pairing rule applied to the concrete
three-file subfolder. -/
theorem C4_subdir_cartesian_pairing_witness :
    ("input/d/clip.mkv".data, "input/d/a.srt".data) ∈
        find_video_pairs ("input".data) c4Walk ↔
      "input/d/clip.mkv".data ∈ videoFiles c4Walk ∧
        "input/d/a.srt".data ∈ subtitleFiles c4Walk ∧
        dirname ("input/d/a.srt".data) = dirname ("input/d/clip.mkv".data) :=
  C4_subdir_cartesian_pairing.1 ("input".data) c4Walk
    ("input/d/clip.mkv".data) ("input/d/a.srt".data) (by decide)

/-! ## Claim C2: cleanup of the transient fragment -/

/-- The environment of a task whose fragment write raises `IOError` after
`open(temp_sub_file, 'w')` has already created the file (for instance, the
disk fills up during `f.write`). -/
def c2Env : GifEnv :=
  { gifExistsNonEmpty := false, writeOutcome := .errAfterCreate,
    runOk := true, producedNonEmpty := true }

/-- C2 (code bug): on the exit path where the fragment write raises
`IOError` after `open` created the file, `make_gif` returns `None` from the
`except IOError` handler (lines 94-96) without deleting the fragment — the
`try`/`finally` that guarantees cleanup (lines 124-137) encloses only the
transcoder invocation, so `temp_sub_{i}.srt` is left on disk, contradicting
the claimed guaranteed cleanup on all exit paths. -/
theorem C2_fragment_survives_write_error :
    (make_gif c2Env id ("gifs/movie".data) ("input/movie.mp4".data) 0
        ⟨"Hello.".data, 0, 1500⟩).tempLeft = true ∧
      (make_gif c2Env id ("gifs/movie".data) ("input/movie.mp4".data) 0
        ⟨"Hello.".data, 0, 1500⟩).ret = none := by
  decide

/-! ## Claim C5: idempotent skip -/

/-- C5 (confirmed): when the derived output GIF already exists non-empty,
`make_gif` performs no effect at all (no fragment write, no transcoder
invocation) and returns the same `{text, path}` record that a successful
generation run would return; under that condition any two invocations
return this same record. -/
theorem C5_idempotent_skip (env envRun : GifEnv) (slug : List Char → List Char)
    (output_dir video_path : List Char) (i : Nat) (sub : SubEntry)
    (h : env.gifExistsNonEmpty = true)
    (h1 : envRun.gifExistsNonEmpty = false) (h2 : envRun.writeOutcome = .ok)
    (h3 : envRun.runOk = true) (h4 : envRun.producedNonEmpty = true) :
    (make_gif env slug output_dir video_path i sub).effects = [] ∧
      (make_gif env slug output_dir video_path i sub).ret =
        some ⟨sub.text, pathJoin output_dir (gif_filename slug i sub)⟩ ∧
      (make_gif env slug output_dir video_path i sub).ret =
        (make_gif envRun slug output_dir video_path i sub).ret := by
  simp [make_gif, h, h1, h2, h3, h4]

/-- C5 (witness): the idempotent skip at a concrete entry: the pre-existing
output environment and a fully successful run environment. -/
theorem C5_idempotent_skip_witness :
    (make_gif ⟨true, .ok, true, true⟩ id ("gifs/movie".data)
        ("input/movie.mp4".data) 2 ⟨"Hi.".data, 0, 900⟩).effects = [] ∧
      (make_gif ⟨true, .ok, true, true⟩ id ("gifs/movie".data)
          ("input/movie.mp4".data) 2 ⟨"Hi.".data, 0, 900⟩).ret =
        some ⟨"Hi.".data,
          pathJoin ("gifs/movie".data) (gif_filename id 2 ⟨"Hi.".data, 0, 900⟩)⟩ ∧
      (make_gif ⟨true, .ok, true, true⟩ id ("gifs/movie".data)
          ("input/movie.mp4".data) 2 ⟨"Hi.".data, 0, 900⟩).ret =
        (make_gif ⟨false, .ok, true, true⟩ id ("gifs/movie".data)
          ("input/movie.mp4".data) 2 ⟨"Hi.".data, 0, 900⟩).ret :=
  C5_idempotent_skip ⟨true, .ok, true, true⟩ ⟨false, .ok, true, true⟩ id
    ("gifs/movie".data) ("input/movie.mp4".data) 2 ⟨"Hi.".data, 0, 900⟩
    rfl rfl rfl rfl rfl

/-! ## Helper lemmas on `pyStrip` and the search predicates -/

theorem head?_dropWhile_false {α : Type} {p : α → Bool} :
    ∀ {l : List α} {c : α}, (l.dropWhile p).head? = some c → p c = false := by
  intro l
  induction l with
  | nil => intro c h; simp at h
  | cons a l ih =>
    intro c h
    rw [List.dropWhile_cons] at h
    by_cases ha : p a
    · rw [if_pos ha] at h
      exact ih h
    · rw [if_neg ha] at h
      simp only [List.head?_cons, Option.some.injEq] at h
      subst h
      exact Bool.of_not_eq_true ha

theorem pyStrip_getLast?_not_ws {l : List Char} {c : Char}
    (h : (pyStrip l).getLast? = some c) : isPyWhitespace c = false := by
  unfold pyStrip at h
  rw [List.getLast?_reverse] at h
  exact head?_dropWhile_false h

theorem pyStrip_head?_not_ws {l : List Char} {c : Char}
    (h : (pyStrip l).head? = some c) : isPyWhitespace c = false := by
  unfold pyStrip at h
  rw [List.head?_reverse] at h
  obtain ⟨t, ht⟩ :=
    List.dropWhile_suffix (l := (l.dropWhile isPyWhitespace).reverse)
      isPyWhitespace
  have hne : (l.dropWhile isPyWhitespace).reverse.dropWhile isPyWhitespace ≠ [] := by
    intro hnil
    rw [hnil] at h
    simp at h
  have hlast :
      ((l.dropWhile isPyWhitespace).reverse).getLast? = some c := by
    rw [← ht, List.getLast?_append_of_ne_nil _ hne]
    exact h
  rw [List.getLast?_reverse] at hlast
  exact head?_dropWhile_false hlast

theorem striptags_getLast?_not_ws {t : List Char} {c : Char}
    (h : (striptags t).getLast? = some c) : isPyWhitespace c = false :=
  pyStrip_getLast?_not_ws h

/-- The tag-stripped text never ends in a newline, so the `$` anchor of the
skip patterns coincides with its end. -/
theorem dollarStrip_striptags (t : List Char) :
    dollarStrip (striptags t) = striptags t := by
  unfold dollarStrip
  rcases h : (striptags t).getLast? with _ | c
  · rfl
  · have hc : c ≠ '\n' := by
      intro hceq
      subst hceq
      have := striptags_getLast?_not_ws h
      simp [isPyWhitespace] at this
    show (if c = '\n' then (striptags t).dropLast else striptags t) =
      striptags t
    rw [if_neg hc]

theorem searchEndsLower_striptags (t : List Char) :
    (searchEndsLower (striptags t) = true ↔
      ∃ c, (striptags t).getLast? = some c ∧ 'a' ≤ c ∧ c ≤ 'z') := by
  unfold searchEndsLower
  rw [dollarStrip_striptags]
  rcases h : (striptags t).getLast? with _ | c <;> simp [isAsciiLower]

theorem searchEndsChar_striptags (ch : Char) (t : List Char) :
    (searchEndsChar ch (striptags t) = true ↔
      (striptags t).getLast? = some ch) := by
  unfold searchEndsChar
  rw [dollarStrip_striptags]
  rcases h : (striptags t).getLast? with _ | c <;> simp

theorem searchStartsLower_iff (t : List Char) :
    (searchStartsLower t = true ↔
      ∃ c, t.head? = some c ∧ 'a' ≤ c ∧ c ≤ 'z') := by
  unfold searchStartsLower
  rcases h : t.head? with _ | c <;> simp [isAsciiLower]

theorem searchStartsEllipsis_iff (t : List Char) :
    (searchStartsEllipsis t = true ↔ t.take 3 = ['.', '.', '.']) := by
  simp [searchStartsEllipsis]

/-! ## Claim C3: the pattern filter -/

/-- C3 (confirmed): with skipping enabled, `no_skips` returns `false` iff
the tag-stripped text matches at least one configured skip pattern — ends
in an ASCII lowercase letter, ends in a comma, ends in a colon, starts with
an ASCII lowercase letter, or starts with an ellipsis — and returns `true`
for every entry matching none of them. -/
theorem C3_pattern_filter (sub : SubEntry) (hEnabled : SKIP_ENABLED = true) :
    (no_skips sub = false ↔
      (∃ c, (striptags sub.text).getLast? = some c ∧ 'a' ≤ c ∧ c ≤ 'z') ∨
        (striptags sub.text).getLast? = some ',' ∨
        (striptags sub.text).getLast? = some ':' ∨
        (∃ c, (striptags sub.text).head? = some c ∧ 'a' ≤ c ∧ c ≤ 'z') ∨
        (striptags sub.text).take 3 = ['.', '.', '.']) := by
  rw [no_skips, hEnabled, if_pos rfl, Bool.not_eq_false']
  rw [matchesSkipPattern]
  simp only [Bool.or_eq_true]
  rw [searchEndsLower_striptags, searchEndsChar_striptags,
    searchEndsChar_striptags, searchStartsLower_iff, searchStartsEllipsis_iff]
  simp only [or_assoc]

/-- C3 (witness): the characterisation at the entry `"hello"` (which starts
and ends with a lowercase letter and is rejected). -/
theorem C3_pattern_filter_witness :
    (no_skips ⟨"hello".data, 0, 1000⟩ = false ↔
      (∃ c, (striptags ("hello".data)).getLast? = some c ∧ 'a' ≤ c ∧ c ≤ 'z') ∨
        (striptags ("hello".data)).getLast? = some ',' ∨
        (striptags ("hello".data)).getLast? = some ':' ∨
        (∃ c, (striptags ("hello".data)).head? = some c ∧ 'a' ≤ c ∧ c ≤ 'z') ∨
        (striptags ("hello".data)).take 3 = ['.', '.', '.']) :=
  C3_pattern_filter ⟨"hello".data, 0, 1000⟩ rfl

/-- Any record returned by `make_gif` (idempotent skip or fresh success)
carries the derived output path. -/
theorem make_gif_ret_path (env : GifEnv) (slug : List Char → List Char)
    (output_dir video_path : List Char) (i : Nat) (sub : SubEntry)
    (r : GifRecord)
    (h : (make_gif env slug output_dir video_path i sub).ret = some r) :
    r.path = pathJoin output_dir (gif_filename slug i sub) := by
  obtain ⟨rt, rp⟩ := r
  rcases env with ⟨ge, wo, ro, pe⟩
  rcases ge <;> rcases wo <;> rcases ro <;> rcases pe <;>
    simp [make_gif] at h <;>
    simp [h.2.symm]

/-! ## Claim C10: tag stripping, trimming, and what is computed over the
trimmed text -/

/-- The subtitle entry used in the C10 witness. -/
def c10Sub : SubEntry := ⟨"Hi.".data, 0, 800⟩

/-- C10 (confirmed): `striptags` removes HTML-like and brace-delimited tags
non-greedily and strips surrounding whitespace — so its output never starts
or ends with a whitespace character; removal is non-greedy (in
`"<a>x<b>"` the two short tags are removed and the text between them kept,
where a greedy match would swallow everything); the pattern filter
consequently rejects a line whose visible text starts with spaces followed
by a lowercase letter; and the slug in the clip filename returned by
`make_gif` is computed over the tag-stripped, whitespace-trimmed text. -/
theorem C10_striptags_trimming :
    (∀ (t : List Char) (c : Char), (striptags t).head? = some c →
        isPyWhitespace c = false) ∧
      (∀ (t : List Char) (c : Char), (striptags t).getLast? = some c →
        isPyWhitespace c = false) ∧
      striptags ("<i>Hi</i> \x7ban\x7dthere".data) = "Hi there".data ∧
      striptags ("<a>x<b>".data) = "x".data ∧
      no_skips ⟨"   hello there.".data, 0, 1000⟩ = false ∧
      (∀ (env : GifEnv) (slug : List Char → List Char)
          (output_dir video_path : List Char) (i : Nat) (sub : SubEntry)
          (r : GifRecord),
        (make_gif env slug output_dir video_path i sub).ret = some r →
          r.path = pathJoin output_dir
            (pad6 i ++ '-' :: (slug (striptags sub.text) ++ ".gif".data))) := by
  refine ⟨fun t c h => pyStrip_head?_not_ws h,
    fun t c h => pyStrip_getLast?_not_ws h, by decide, by decide, by decide, ?_⟩
  intro env slug output_dir video_path i sub r h
  rw [make_gif_ret_path env slug output_dir video_path i sub r h]
  rfl

/-- C10 (witness): the trimming facts and the filename-slug fact applied at
concrete inputs. -/
theorem C10_striptags_trimming_witness :
    isPyWhitespace 'h' = false ∧ isPyWhitespace '.' = false ∧
      (⟨c10Sub.text, pathJoin ("gifs/m".data) (gif_filename id 1 c10Sub)⟩ :
          GifRecord).path =
        pathJoin ("gifs/m".data)
          (pad6 1 ++ '-' :: (id (striptags c10Sub.text) ++ ".gif".data)) :=
  ⟨C10_striptags_trimming.1 ("  hi".data) 'h' (by decide),
    C10_striptags_trimming.2.1 ("hi. ".data) '.' (by decide),
    C10_striptags_trimming.2.2.2.2.2 ⟨true, .ok, true, true⟩ id
      ("gifs/m".data) ("input/m.mp4".data) 1 c10Sub
      ⟨c10Sub.text, pathJoin ("gifs/m".data) (gif_filename id 1 c10Sub)⟩
      (by decide)⟩

/-! ## Helper lemmas on decimal digit strings -/

/-- Reference digit-string builder, recursive on the value. -/
def natDigits (n : Nat) : List Char :=
  if _h : n < 10 then [digitToChar n]
  else natDigits (n / 10) ++ [digitToChar (n % 10)]
termination_by n
decreasing_by
  simp_wf
  exact Nat.div_lt_self (by omega) (by norm_num)

theorem natDecimalAux_eq :
    ∀ (fuel n : Nat) (acc : List Char), n < fuel →
      natDecimalAux fuel n acc = natDigits n ++ acc := by
  intro fuel
  induction fuel with
  | zero => intro n acc h; omega
  | succ f ih =>
    intro n acc h
    rw [natDecimalAux]
    by_cases h10 : n < 10
    · rw [if_pos h10, natDigits, dif_pos h10]
      simp
    · have hdiv : n / 10 < n := Nat.div_lt_self (by omega) (by norm_num)
      rw [if_neg h10, ih (n / 10) _ (by omega)]
      conv_rhs => rw [natDigits]
      rw [dif_neg h10]
      simp

theorem natDecimal_eq_natDigits (n : Nat) : natDecimal n = natDigits n := by
  rw [natDecimal, natDecimalAux_eq (n + 1) n [] (Nat.lt_succ_self n),
    List.append_nil]

theorem parseDecimal_append_digit (l : List Char) (c : Char) :
    parseDecimal (l ++ [c]) = parseDecimal l * 10 + digitVal c := by
  simp [parseDecimal, List.foldl_append]

theorem digitVal_digitToChar (d : Nat) (h : d < 10) :
    digitVal (digitToChar d) = d := by
  interval_cases d <;> decide

theorem parseDecimal_natDigits : ∀ n : Nat, parseDecimal (natDigits n) = n := by
  intro n
  induction n using Nat.strong_induction_on with
  | _ n ih =>
    rw [natDigits]
    by_cases h10 : n < 10
    · rw [dif_pos h10]
      simp [parseDecimal, digitVal_digitToChar n h10]
    · rw [dif_neg h10, parseDecimal_append_digit,
        ih (n / 10) (Nat.div_lt_self (by omega) (by norm_num)),
        digitVal_digitToChar (n % 10) (Nat.mod_lt n (by norm_num))]
      omega

theorem parseDecimal_natDecimal (n : Nat) :
    parseDecimal (natDecimal n) = n := by
  rw [natDecimal_eq_natDigits, parseDecimal_natDigits]

theorem parseDecimal_cons_zero (l : List Char) :
    parseDecimal ('0' :: l) = parseDecimal l := by
  simp [parseDecimal, digitVal]

theorem parseDecimal_replicate_zero (k : Nat) (l : List Char) :
    parseDecimal (List.replicate k '0' ++ l) = parseDecimal l := by
  induction k with
  | zero => simp
  | succ k ih => rw [List.replicate_succ, List.cons_append,
      parseDecimal_cons_zero, ih]

theorem parseDecimal_pad6 (i : Nat) : parseDecimal (pad6 i) = i := by
  rw [pad6, parseDecimal_replicate_zero, parseDecimal_natDecimal]

theorem natDigits_length_le :
    ∀ (k n : Nat), n < 10 ^ (k + 1) → (natDigits n).length ≤ k + 1 := by
  intro k
  induction k with
  | zero =>
    intro n h
    rw [natDigits, dif_pos (by omega : n < 10)]
    simp
  | succ k ih =>
    intro n h
    by_cases h10 : n < 10
    · rw [natDigits, dif_pos h10]
      simp
    · rw [natDigits, dif_neg h10, List.length_append]
      have hd : n / 10 < 10 ^ (k + 1) := by
        rw [Nat.div_lt_iff_lt_mul (by norm_num : (0:ℕ) < 10)]
        calc n < 10 ^ (k + 1 + 1) := h
          _ = 10 ^ (k + 1) * 10 := by ring
      have := ih (n / 10) hd
      simp only [List.length_singleton]
      omega

theorem pad6_length_eq_six (i : Nat) (h : i < 1000000) :
    (pad6 i).length = 6 := by
  have hlen : (natDecimal i).length ≤ 6 := by
    rw [natDecimal_eq_natDigits]
    exact natDigits_length_le 5 i (by norm_num; omega)
  rw [pad6, List.length_append, List.length_replicate]
  omega

theorem digitToChar_mem : ∀ d : Nat,
    digitToChar d ∈ ['0', '1', '2', '3', '4', '5', '6', '7', '8', '9'] := by
  intro d
  unfold digitToChar
  split <;> decide

theorem natDigits_mem_char {p : Char → Prop}
    (hp : ∀ d : Nat, p (digitToChar d)) :
    ∀ n : Nat, ∀ c ∈ natDigits n, p c := by
  intro n
  induction n using Nat.strong_induction_on with
  | _ n ih =>
    intro c hc
    rw [natDigits] at hc
    by_cases h10 : n < 10
    · rw [dif_pos h10, List.mem_singleton] at hc
      subst hc
      exact hp n
    · rw [dif_neg h10, List.mem_append] at hc
      rcases hc with hc | hc
      · exact ih (n / 10) (Nat.div_lt_self (by omega) (by norm_num)) c hc
      · rw [List.mem_singleton] at hc
        subst hc
        exact hp (n % 10)

theorem pad6_mem_char {p : Char → Prop} (hp0 : p '0')
    (hp : ∀ d : Nat, p (digitToChar d)) (i : Nat) : ∀ c ∈ pad6 i, p c := by
  intro c hc
  rw [pad6, List.mem_append] at hc
  rcases hc with hc | hc
  · rw [List.eq_of_mem_replicate hc]
    exact hp0
  · rw [natDecimal_eq_natDigits] at hc
    exact natDigits_mem_char hp i c hc

theorem digitToChar_ne_dash (d : Nat) : digitToChar d ≠ '-' := by
  intro hc
  have h := digitToChar_mem d
  rw [hc] at h
  exact absurd h (by decide)

theorem digitToChar_ne_slash (d : Nat) : digitToChar d ≠ '/' := by
  intro hc
  have h := digitToChar_mem d
  rw [hc] at h
  exact absurd h (by decide)

theorem pad6_ne_dash (i : Nat) : ∀ c ∈ pad6 i, c ≠ '-' :=
  pad6_mem_char (by decide) digitToChar_ne_dash i

theorem pad6_ne_slash (i : Nat) : ∀ c ∈ pad6 i, c ≠ '/' :=
  pad6_mem_char (by decide) digitToChar_ne_slash i

theorem takeWhile_append_of_all {α : Type} (p : α → Bool) :
    ∀ (l r : List α), (∀ c ∈ l, p c = true) →
      (l ++ r).takeWhile p = l ++ r.takeWhile p := by
  intro l
  induction l with
  | nil => intro r _; simp
  | cons a l ih =>
    intro r h
    have ha := h a (List.mem_cons_self a l)
    simp only [List.cons_append, List.takeWhile_cons, ha, if_true]
    rw [ih r (fun c hc => h c (List.mem_cons_of_mem a hc))]

/-- The `split('-')[0]` prefix of a clip filename is exactly its zero-padded
index. -/
theorem dashSplit0_gif_filename (slug : List Char → List Char) (i : Nat)
    (sub : SubEntry) : dashSplit0 (gif_filename slug i sub) = pad6 i := by
  rw [gif_filename, dashSplit0,
    takeWhile_append_of_all _ (pad6 i) _
      (fun c hc => decide_eq_true (pad6_ne_dash i c hc))]
  simp [List.takeWhile_cons]

/-! ## Claim C9: the filename index invariant -/

/-- C9 (confirmed): the `k`-th task of a video's filtered subtitle sequence
carries index `k` (its 0-based filtered position); the numeric value of the
`split('-')[0]` prefix of the clip filename is exactly that index; for
indices below `10^6` the prefix is exactly 6 digits; and distinct filtered
positions always yield distinct filename prefixes (collision-freedom). -/
theorem C9_filename_index_invariant :
    (∀ (subs : List SubEntry) (k : Nat),
        (pvTasks subs)[k]? =
          ((subs.filter no_skips)[k]?).map (fun s => (k, s))) ∧
      (∀ (slug : List Char → List Char) (i : Nat) (sub : SubEntry),
        parseDecimal (dashSplit0 (gif_filename slug i sub)) = i) ∧
      (∀ (slug : List Char → List Char) (i : Nat) (sub : SubEntry),
        i < 1000000 → (dashSplit0 (gif_filename slug i sub)).length = 6) ∧
      (∀ (slug₁ slug₂ : List Char → List Char) (i j : Nat)
          (sub₁ sub₂ : SubEntry), i ≠ j →
        dashSplit0 (gif_filename slug₁ i sub₁) ≠
          dashSplit0 (gif_filename slug₂ j sub₂)) := by
  refine ⟨?_, ?_, ?_, ?_⟩
  · intro subs k
    rw [pvTasks]
    exact List.getElem?_enum _ _
  · intro slug i sub
    rw [dashSplit0_gif_filename, parseDecimal_pad6]
  · intro slug i sub h
    rw [dashSplit0_gif_filename]
    exact pad6_length_eq_six i h
  · intro slug₁ slug₂ i j sub₁ sub₂ hne heq
    apply hne
    have h2 := congrArg parseDecimal heq
    rwa [dashSplit0_gif_filename, dashSplit0_gif_filename,
      parseDecimal_pad6, parseDecimal_pad6] at h2

/-- The subtitle entry used in the C9 witness. -/
def c9Sub : SubEntry := ⟨"Ok then.".data, 10, 900⟩

/-- C9 (witness): 6-digit prefix and collision-freedom at concrete
indices. -/
theorem C9_filename_index_invariant_witness :
    (dashSplit0 (gif_filename id 7 c9Sub)).length = 6 ∧
      dashSplit0 (gif_filename id 0 c9Sub) ≠
        dashSplit0 (gif_filename id 1 c9Sub) :=
  ⟨C9_filename_index_invariant.2.2.1 id 7 c9Sub (by norm_num),
    C9_filename_index_invariant.2.2.2 id id 0 1 c9Sub c9Sub (by norm_num)⟩

/-! ## Helper lemmas on the manifest sort -/

theorem pySort_sorted (l : List GifRecord) :
    List.Sorted (fun a b => manifestSortKey a.path ≤ manifestSortKey b.path)
      (pySort l) := by
  haveI : IsTotal GifRecord
      (fun a b => manifestSortKey a.path ≤ manifestSortKey b.path) :=
    ⟨fun a b => Nat.le_total _ _⟩
  haveI : IsTrans GifRecord
      (fun a b => manifestSortKey a.path ≤ manifestSortKey b.path) :=
    ⟨fun _ _ _ => Nat.le_trans⟩
  exact List.sorted_insertionSort _ l

theorem pySort_perm (l : List GifRecord) : List.Perm (pySort l) l :=
  List.perm_insertionSort _ l

/-- Two sorted lists of records that are permutations of one another and
whose sort keys are collision-free are equal. -/
theorem sorted_key_nodup_eq (l₁ l₂ : List GifRecord)
    (h : List.Perm l₁ l₂)
    (hs₁ : List.Sorted
      (fun a b => manifestSortKey a.path ≤ manifestSortKey b.path) l₁)
    (hs₂ : List.Sorted
      (fun a b => manifestSortKey a.path ≤ manifestSortKey b.path) l₂)
    (hnd : (l₁.map (fun r => manifestSortKey r.path)).Nodup) : l₁ = l₂ := by
  haveI : IsAntisymm GifRecord
      (fun a b => manifestSortKey a.path < manifestSortKey b.path) :=
    ⟨fun a b h1 h2 => absurd h2 (Nat.lt_asymm h1)⟩
  have hne₁ : List.Pairwise
      (fun a b => manifestSortKey a.path ≠ manifestSortKey b.path) l₁ :=
    List.pairwise_map.mp hnd
  have hnd₂ : (l₂.map (fun r => manifestSortKey r.path)).Nodup :=
    ((h.map (fun r => manifestSortKey r.path)).nodup_iff).mp hnd
  have hne₂ : List.Pairwise
      (fun a b => manifestSortKey a.path ≠ manifestSortKey b.path) l₂ :=
    List.pairwise_map.mp hnd₂
  have hlt₁ : List.Pairwise
      (fun a b => manifestSortKey a.path < manifestSortKey b.path) l₁ :=
    (List.Pairwise.and hs₁ hne₁).imp
      (fun hab => lt_of_le_of_ne hab.1 hab.2)
  have hlt₂ : List.Pairwise
      (fun a b => manifestSortKey a.path < manifestSortKey b.path) l₂ :=
    (List.Pairwise.and hs₂ hne₂).imp
      (fun hab => lt_of_le_of_ne hab.1 hab.2)
  exact List.eq_of_perm_of_sorted h hlt₁ hlt₂

/-- Sorting is determined by the multiset of records when the sort keys are
collision-free: any two arrival orders sort to the same list. -/
theorem pySort_eq_of_perm (l₁ l₂ : List GifRecord) (h : List.Perm l₁ l₂)
    (hnd : (l₁.map (fun r => manifestSortKey r.path)).Nodup) :
    pySort l₁ = pySort l₂ :=
  sorted_key_nodup_eq _ _
    ((pySort_perm l₁).trans (h.trans (pySort_perm l₂).symm))
    (pySort_sorted l₁) (pySort_sorted l₂)
    (((pySort_perm l₁).map (fun r => manifestSortKey r.path)).nodup_iff.mpr hnd)

/-- `process_video` on a successfully parsed subtitle list, unfolded. -/
theorem process_video_ok_eq (subs : List SubEntry) (env : Nat → GifEnv)
    (slug : List Char → List Char) (video_path output_dir : List Char)
    (arrive : List (Nat × SubEntry) → List (Nat × SubEntry)) :
    process_video (.ok subs) env slug video_path output_dir arrive =
      { manifest :=
          if collectedMetadata subs env slug output_dir video_path arrive = []
          then none
          else some (pySort
            (collectedMetadata subs env slug output_dir video_path arrive)),
        effects := ((arrive (pvTasks subs)).map
            (fun t =>
              make_gif (env t.1) slug output_dir video_path t.1 t.2)).flatMap
          (fun r => r.effects) } :=
  rfl

/-- The collected records of one completion order are a permutation of the
records collected in task order. -/
theorem collectedMetadata_perm (subs : List SubEntry) (env : Nat → GifEnv)
    (slug : List Char → List Char) (output_dir video_path : List Char)
    (arrive : List (Nat × SubEntry) → List (Nat × SubEntry))
    (h : List.Perm (arrive (pvTasks subs)) (pvTasks subs)) :
    List.Perm (collectedMetadata subs env slug output_dir video_path arrive)
      ((pvTasks subs).filterMap
        (fun t => (make_gif (env t.1) slug output_dir video_path t.1 t.2).ret)) := by
  rw [collectedMetadata, List.filterMap_map]
  exact List.Perm.filterMap _ h

/-- `os.path.basename` undoes `os.path.join` for slash-free file names. -/
theorem basename_pathJoin (d f : List Char) (hf : ∀ c ∈ f, c ≠ '/') :
    basename (pathJoin d f) = f := by
  rw [basename, pathJoin]
  rw [show (d ++ '/' :: f).reverse = f.reverse ++ '/' :: d.reverse by simp]
  rw [takeWhile_append_of_all _ f.reverse _
    (fun c hc => decide_eq_true (hf c (List.mem_reverse.mp hc)))]
  simp [List.takeWhile_cons]

/-- A clip filename contains no path separator when the slugifier emits
none. -/
theorem gif_filename_no_slash (slug : List Char → List Char) (i : Nat)
    (sub : SubEntry) (hs : ∀ c ∈ slug (striptags sub.text), c ≠ '/') :
    ∀ c ∈ gif_filename slug i sub, c ≠ '/' := by
  intro c hc
  rw [gif_filename] at hc
  rcases List.mem_append.mp hc with hc | hc
  · exact pad6_ne_slash i c hc
  · rcases List.mem_cons.mp hc with hc | hc
    · subst hc
      decide
    · rcases List.mem_append.mp hc with hc | hc
      · exact hs c hc
      · have hgif : ∀ x ∈ ".gif".data, x ≠ '/' := by decide
        exact hgif c hc

/-- The manifest sort key recovers the task index from a record's path. -/
theorem manifestSortKey_gif_path (slug : List Char → List Char)
    (output_dir : List Char) (i : Nat) (sub : SubEntry)
    (hs : ∀ c ∈ slug (striptags sub.text), c ≠ '/') :
    manifestSortKey (pathJoin output_dir (gif_filename slug i sub)) = i := by
  rw [manifestSortKey,
    basename_pathJoin _ _ (gif_filename_no_slash slug i sub hs),
    dashSplit0_gif_filename, parseDecimal_pad6]

/-- Over any task list, the sort keys of the collected records are exactly
the indices of the successful tasks. -/
theorem keys_filterMap_ret (env : Nat → GifEnv) (slug : List Char → List Char)
    (output_dir video_path : List Char)
    (hslug : ∀ s : List Char, ∀ c ∈ slug s, c ≠ '/') :
    ∀ ts : List (Nat × SubEntry),
      ((ts.filterMap
          (fun t =>
            (make_gif (env t.1) slug output_dir video_path t.1 t.2).ret)).map
        (fun r => manifestSortKey r.path)) =
      (ts.filter
          (fun t =>
            ((make_gif (env t.1) slug output_dir video_path
              t.1 t.2).ret).isSome)).map
        (fun t => t.1) := by
  intro ts
  induction ts with
  | nil => rfl
  | cons t ts ih =>
    rcases hr : (make_gif (env t.1) slug output_dir video_path t.1 t.2).ret
      with _ | r
    · simpa [List.filterMap_cons, List.filter_cons, hr] using ih
    · have hkey : manifestSortKey r.path = t.1 := by
        rw [make_gif_ret_path _ _ _ _ _ _ _ hr]
        exact manifestSortKey_gif_path slug output_dir t.1 t.2 (hslug _)
      simp [List.filterMap_cons, List.filter_cons, hr, ih, hkey]

/-- With a slash-free slugifier the collected records' sort keys are
collision-free: they are a subset of the distinct task indices. -/
theorem collected_keys_nodup (subs : List SubEntry) (env : Nat → GifEnv)
    (slug : List Char → List Char) (output_dir video_path : List Char)
    (arrive : List (Nat × SubEntry) → List (Nat × SubEntry))
    (h : List.Perm (arrive (pvTasks subs)) (pvTasks subs))
    (hslug : ∀ s : List Char, ∀ c ∈ slug s, c ≠ '/') :
    ((collectedMetadata subs env slug output_dir video_path arrive).map
      (fun r => manifestSortKey r.path)).Nodup := by
  have hperm :=
    collectedMetadata_perm subs env slug output_dir video_path arrive h
  refine ((hperm.map (fun r => manifestSortKey r.path)).nodup_iff).mpr ?_
  rw [keys_filterMap_ret env slug output_dir video_path hslug]
  have h1 : List.Sublist
      (((pvTasks subs).filter
          (fun t =>
            ((make_gif (env t.1) slug output_dir video_path
              t.1 t.2).ret).isSome)).map (fun t => t.1))
      ((pvTasks subs).map (fun t => t.1)) :=
    (List.filter_sublist _).map _
  have h2 : ((pvTasks subs).map (fun t => t.1)).Nodup := by
    rw [pvTasks]
    have := List.enum_map_fst (subs.filter no_skips)
    simp only [show (fun t : Nat × SubEntry => t.1) = Prod.fst from rfl]
    rw [this]
    exact List.nodup_range _
  exact h1.nodup h2

/-! ## Claim C6: manifest ordering -/

/-- C6 (confirmed): when no clips succeeded no manifest is written; a
written manifest holds exactly the collected records sorted in ascending
order of the numeric prefix embedded in each record's filename; and the
written manifest is independent of the completion order in which the
results arrived (for collision-free sort keys). -/
theorem C6_manifest_sorted (subs : List SubEntry) (env : Nat → GifEnv)
    (slug : List Char → List Char) (video_path output_dir : List Char)
    (arrive₁ arrive₂ : List (Nat × SubEntry) → List (Nat × SubEntry))
    (h₁ : List.Perm (arrive₁ (pvTasks subs)) (pvTasks subs))
    (h₂ : List.Perm (arrive₂ (pvTasks subs)) (pvTasks subs))
    (hslug : ∀ s : List Char, ∀ c ∈ slug s, c ≠ '/') :
    (collectedMetadata subs env slug output_dir video_path arrive₁ = [] →
        (process_video (.ok subs) env slug video_path output_dir
          arrive₁).manifest = none) ∧
      (∀ m,
        (process_video (.ok subs) env slug video_path output_dir
            arrive₁).manifest = some m →
        List.Sorted (fun a b => manifestSortKey a.path ≤ manifestSortKey b.path)
            m ∧
          List.Perm m
            (collectedMetadata subs env slug output_dir video_path arrive₁)) ∧
      (process_video (.ok subs) env slug video_path output_dir
          arrive₁).manifest =
        (process_video (.ok subs) env slug video_path output_dir
          arrive₂).manifest := by
  have hperm : List.Perm
      (collectedMetadata subs env slug output_dir video_path arrive₁)
      (collectedMetadata subs env slug output_dir video_path arrive₂) :=
    (collectedMetadata_perm subs env slug output_dir video_path arrive₁
        h₁).trans
      (collectedMetadata_perm subs env slug output_dir video_path arrive₂
        h₂).symm
  refine ⟨?_, ?_, ?_⟩
  · intro hnil
    rw [process_video_ok_eq]
    simp [hnil]
  · intro m hm
    rw [process_video_ok_eq] at hm
    by_cases hnil :
        collectedMetadata subs env slug output_dir video_path arrive₁ = []
    · simp [hnil] at hm
    · simp only [if_neg hnil, Option.some.injEq] at hm
      subst hm
      exact ⟨pySort_sorted _, pySort_perm _⟩
  · rw [process_video_ok_eq, process_video_ok_eq]
    by_cases hnil :
        collectedMetadata subs env slug output_dir video_path arrive₁ = []
    · have hnil₂ :
          collectedMetadata subs env slug output_dir video_path arrive₂ = [] := by
        have hp := hperm
        rw [hnil] at hp
        exact hp.symm.eq_nil
      simp [hnil, hnil₂]
    · have hnil₂ :
          collectedMetadata subs env slug output_dir video_path arrive₂ ≠ [] := by
        intro hc
        apply hnil
        have hp := hperm
        rw [hc] at hp
        exact hp.eq_nil
      simp only [if_neg hnil, if_neg hnil₂, Option.some.injEq]
      exact pySort_eq_of_perm _ _ hperm
        (collected_keys_nodup subs env slug output_dir video_path arrive₁ h₁
          hslug)

/-- Concrete data for the C6 witness: two passing entries, all tasks
succeed, compared completion orders are reversal and task order. -/
def c6Subs : List SubEntry := [⟨"One.".data, 0, 500⟩, ⟨"Two.".data, 600, 900⟩]

/-- All-success clip environment. -/
def c6Env : Nat → GifEnv := fun _ => ⟨false, .ok, true, true⟩

/-- A model slugifier for witnesses: keeps everything but path separators
(the real `slugify` emits only letters, digits and hyphens). -/
def witnessSlug : List Char → List Char :=
  fun s => s.filter (fun c => decide (c ≠ '/'))

theorem witnessSlug_no_slash :
    ∀ s : List Char, ∀ c ∈ witnessSlug s, c ≠ '/' := by
  intro s c hc
  rw [witnessSlug, List.mem_filter] at hc
  exact of_decide_eq_true hc.2

/-- C6 (witness): the manifest facts at a concrete two-clip video whose
results arrive in reversed completion order. -/
theorem C6_manifest_sorted_witness :
    (collectedMetadata c6Subs c6Env witnessSlug ("gifs/movie".data)
          ("input/movie.mp4".data) List.reverse = [] →
        (process_video (.ok c6Subs) c6Env witnessSlug ("input/movie.mp4".data)
          ("gifs/movie".data) List.reverse).manifest = none) ∧
      (∀ m,
        (process_video (.ok c6Subs) c6Env witnessSlug ("input/movie.mp4".data)
            ("gifs/movie".data) List.reverse).manifest = some m →
        List.Sorted (fun a b => manifestSortKey a.path ≤ manifestSortKey b.path)
            m ∧
          List.Perm m
            (collectedMetadata c6Subs c6Env witnessSlug ("gifs/movie".data)
              ("input/movie.mp4".data) List.reverse)) ∧
      (process_video (.ok c6Subs) c6Env witnessSlug ("input/movie.mp4".data)
          ("gifs/movie".data) List.reverse).manifest =
        (process_video (.ok c6Subs) c6Env witnessSlug ("input/movie.mp4".data)
          ("gifs/movie".data) id).manifest :=
  C6_manifest_sorted c6Subs c6Env witnessSlug ("input/movie.mp4".data)
    ("gifs/movie".data) List.reverse id (List.reverse_perm _)
    (List.Perm.refl _) witnessSlug_no_slash

/-! ## Claim C7: failure isolation -/

/-- C7 (confirmed): in any completion order, the collected records are
exactly the successful tasks' records — a task whose transcoding fails (bad
exit code or empty output) has `ret = none` and contributes nothing, while
every sibling task's record is collected; a written manifest contains a
record iff some task of the filtered sequence succeeded with it.  (In the
model `make_gif` is total: these failures return `None` rather than raising,
so no exception leaves the video's processing.) -/
theorem C7_failure_isolation (subs : List SubEntry) (env : Nat → GifEnv)
    (slug : List Char → List Char) (video_path output_dir : List Char)
    (arrive : List (Nat × SubEntry) → List (Nat × SubEntry))
    (h : List.Perm (arrive (pvTasks subs)) (pvTasks subs)) :
    List.Perm (collectedMetadata subs env slug output_dir video_path arrive)
        ((pvTasks subs).filterMap
          (fun t =>
            (make_gif (env t.1) slug output_dir video_path t.1 t.2).ret)) ∧
      (∀ r,
        r ∈ collectedMetadata subs env slug output_dir video_path arrive ↔
          ∃ t ∈ pvTasks subs,
            (make_gif (env t.1) slug output_dir video_path t.1 t.2).ret =
              some r) ∧
      (∀ m,
        (process_video (.ok subs) env slug video_path output_dir
            arrive).manifest = some m →
        ∀ r, r ∈ m ↔
          ∃ t ∈ pvTasks subs,
            (make_gif (env t.1) slug output_dir video_path t.1 t.2).ret =
              some r) := by
  have hperm :=
    collectedMetadata_perm subs env slug output_dir video_path arrive h
  have hmem : ∀ r,
      r ∈ collectedMetadata subs env slug output_dir video_path arrive ↔
        ∃ t ∈ pvTasks subs,
          (make_gif (env t.1) slug output_dir video_path t.1 t.2).ret =
            some r := by
    intro r
    rw [hperm.mem_iff, List.mem_filterMap]
  refine ⟨hperm, hmem, ?_⟩
  intro m hm r
  rw [process_video_ok_eq] at hm
  by_cases hnil :
      collectedMetadata subs env slug output_dir video_path arrive = []
  · simp [hnil] at hm
  · simp only [if_neg hnil, Option.some.injEq] at hm
    subst hm
    rw [(pySort_perm _).mem_iff]
    exact hmem r

/-- Concrete data for the C7 witness: the specification's example of a
5-entry filtered set. -/
def c7Subs : List SubEntry :=
  [⟨"A.".data, 0, 1⟩, ⟨"B.".data, 1, 2⟩, ⟨"C.".data, 2, 3⟩,
   ⟨"D.".data, 3, 4⟩, ⟨"E.".data, 4, 5⟩]

/-- Clip environment in which the external tool fails exactly for subtitle
index 3. -/
def c7Env : Nat → GifEnv := fun i =>
  if i = 3 then ⟨false, .ok, false, false⟩ else ⟨false, .ok, true, true⟩

/-- C7 (witness): failure isolation at the concrete 5-entry example with
index 3 failing. -/
theorem C7_failure_isolation_witness :
    List.Perm (collectedMetadata c7Subs c7Env id ("gifs/movie".data)
          ("input/movie.mp4".data) id)
        ((pvTasks c7Subs).filterMap
          (fun t =>
            (make_gif (c7Env t.1) id ("gifs/movie".data)
              ("input/movie.mp4".data) t.1 t.2).ret)) ∧
      (∀ r,
        r ∈ collectedMetadata c7Subs c7Env id ("gifs/movie".data)
            ("input/movie.mp4".data) id ↔
          ∃ t ∈ pvTasks c7Subs,
            (make_gif (c7Env t.1) id ("gifs/movie".data)
              ("input/movie.mp4".data) t.1 t.2).ret = some r) ∧
      (∀ m,
        (process_video (.ok c7Subs) c7Env id ("input/movie.mp4".data)
            ("gifs/movie".data) id).manifest = some m →
        ∀ r, r ∈ m ↔
          ∃ t ∈ pvTasks c7Subs,
            (make_gif (c7Env t.1) id ("gifs/movie".data)
              ("input/movie.mp4".data) t.1 t.2).ret = some r) :=
  C7_failure_isolation c7Subs c7Env id ("input/movie.mp4".data)
    ("gifs/movie".data) id (List.Perm.refl _)

/-! ## Claim C8: parse failure aborts only its pair -/

/-- C8 (confirmed): when the subtitle file of the `k`-th pair fails to read
(`pysrt.open` raises the `IOError` caught on lines 149-151), that pair's
processing produces no clips and writes no manifest, while the main loop
still processes every pair: the results list has one entry per pair, and
every other pair's result is exactly what processing it alone yields. -/
theorem C8_parse_failure_isolation (pairs : List (List Char × List Char))
    (env : Nat → PairEnv) (slug : List Char → List Char) (k : Nat)
    (hfail : (env k).parse = .error ()) :
    (mainLoop pairs env slug).length = pairs.length ∧
      (∀ p, pairs[k]? = some p →
        (mainLoop pairs env slug)[k]? =
          some { manifest := none, effects := [] }) ∧
      (∀ (j : Nat) (p : List Char × List Char), pairs[j]? = some p →
        (mainLoop pairs env slug)[j]? =
          some (process_video (env j).parse (env j).taskEnv slug p.1
            (videoOutputDir p.1) (env j).arrive)) := by
  have hall : ∀ (j : Nat) (p : List Char × List Char), pairs[j]? = some p →
      (mainLoop pairs env slug)[j]? =
        some (process_video (env j).parse (env j).taskEnv slug p.1
          (videoOutputDir p.1) (env j).arrive) := by
    intro j p hp
    rw [mainLoop, List.getElem?_map, List.getElem?_enum, hp]
    rfl
  refine ⟨?_, ?_, hall⟩
  · rw [mainLoop, List.length_map, List.enum_length]
  · intro p hp
    rw [hall k p hp, hfail]
    rfl

/-- Concrete pairs for the C8 witness. -/
def c8Pairs : List (List Char × List Char) :=
  [("input/a.mp4".data, "input/a.srt".data),
   ("input/b.mp4".data, "input/b.srt".data)]

/-- Pair environment in which pair 0's subtitle file fails to read and pair
1 parses fine. -/
def c8Env : Nat → PairEnv := fun k =>
  if k = 0 then ⟨.error (), fun _ => ⟨false, .ok, true, true⟩, id⟩
  else ⟨.ok [⟨"Hey.".data, 0, 700⟩], fun _ => ⟨false, .ok, true, true⟩, id⟩

/-- C8 (witness): pair 0's parse failure leaves pair 1 processed as
usual. -/
theorem C8_parse_failure_isolation_witness :
    (mainLoop c8Pairs c8Env id).length = c8Pairs.length ∧
      (∀ p, c8Pairs[0]? = some p →
        (mainLoop c8Pairs c8Env id)[0]? =
          some { manifest := none, effects := [] }) ∧
      (∀ (j : Nat) (p : List Char × List Char), c8Pairs[j]? = some p →
        (mainLoop c8Pairs c8Env id)[j]? =
          some (process_video (c8Env j).parse (c8Env j).taskEnv id p.1
            (videoOutputDir p.1) (c8Env j).arrive)) :=
  C8_parse_failure_isolation c8Pairs c8Env id 0 rfl

end MediaToGif
